import Mathlib

/-!
Shallow embedding of the `cuda_tools::host_shared_ptr<T>` buffer handle
(`host_shared_ptr.cu` / `host_shared_ptr.cuh`) and the fill-kernel launch
machinery (`kernel_fill`, `to_bench.cu`'s `kernel`).

Memory model: device memory and host memory are two separate address spaces,
each a partial map from allocation identifiers to their current contents
(a list of elements).  `cudaMalloc` / `new T[n]` hand out the next fresh
identifier; the contents of a fresh allocation are unspecified, so every
allocating operation takes the junk contents of the new block as an explicit
parameter (theorems quantify over it, constrained only by its length).
`cudaFree` / `delete[]` remove an identifier from the map; `cudaFree` on a
null pointer is a no-op, matching the CUDA runtime.  Fallible runtime calls
abort the process via `cuda_safe_call` rather than returning, so the
embedding is total; undefined behaviour (memcpy through a null or dangling
pointer) is modelled as leaving memory unchanged and is excluded by the
hypotheses of the theorems.
-/

/-- The two memory spaces plus the fresh-identifier counter. -/
@[ext]
structure Heap (α : Type) where
  device : Nat → Option (List α)
  host : Nat → Option (List α)
  nextId : Nat

/-- The initial state: nothing allocated in either space. -/
def emptyHeap (α : Type) : Heap α :=
  { device := fun _ => none, host := fun _ => none, nextId := 0 }

/-- The handle's fields, exactly as declared in `host_shared_ptr.cuh`:
`data_` (device pointer), `host_data_` (host mirror pointer), `size_`,
`counter_`.  Pointers are `Option Nat` allocation ids, `none` = `nullptr`.
The in-class initializers give the default-constructed state. -/
structure host_shared_ptr where
  data_ : Option Nat := none
  host_data_ : Option Nat := none
  size_ : Nat := 0
  counter_ : Int := 1
deriving DecidableEq

/-- `host_shared_ptr() = default;` — all fields take their in-class
initializers. -/
def default_ctor : host_shared_ptr := {}

/-- Store `l` at device id `i`. -/
def Heap.writeDev (h : Heap α) (i : Nat) (l : List α) : Heap α :=
  { h with device := fun j => if j = i then some l else h.device j }

/-- Store `l` at host id `i`. -/
def Heap.writeHost (h : Heap α) (i : Nat) (l : List α) : Heap α :=
  { h with host := fun j => if j = i then some l else h.host j }

/-- `cudaFree(p)`: remove the allocation from device memory; freeing the
null pointer is a no-op. -/
def Heap.cudaFree (h : Heap α) (p : Option Nat) : Heap α :=
  match p with
  | none => h
  | some i => { h with device := fun j => if j = i then none else h.device j }

/-- `delete[] p`: remove the allocation from host memory. -/
def Heap.deleteArr (h : Heap α) (p : Option Nat) : Heap α :=
  match p with
  | none => h
  | some i => { h with host := fun j => if j = i then none else h.host j }

/-- `memcpy`-style overwrite of the first `n` elements of `dst` with the
first `n` elements of `src`. -/
def memcpyList (dst src : List α) (n : Nat) : List α :=
  src.take n ++ dst.drop n

/-- `device_allocate(size)`: `cudaMalloc` a fresh device block for `size`
elements and store it in `data_`.  `junk` is the unspecified initial
contents of the block (length `size`). -/
def device_allocate (h : Heap α) (p : host_shared_ptr) (size : Nat)
    (junk : List α) : Heap α × host_shared_ptr :=
  ({ h.writeDev h.nextId junk with nextId := h.nextId + 1 },
   { p with data_ := some h.nextId })

/-- `host_shared_ptr(std::size_t size)`: member init `size_(size)`, other
fields defaulted, then `device_allocate(size)`. -/
def sized_ctor (h : Heap α) (size : Nat) (junk : List α) :
    Heap α × host_shared_ptr :=
  device_allocate h { default_ctor with size_ := size } size junk

/-- `host_shared_ptr(host_shared_ptr<T>& ptr)` (copy constructor): member
initializers `data_(ptr.data_), host_data_(ptr.host_data_), size_(ptr.size_),
counter_(ptr.counter_ + 1)`.  `ptr` itself is not modified. -/
def copy_ctor (ptr : host_shared_ptr) : host_shared_ptr :=
  { data_ := ptr.data_, host_data_ := ptr.host_data_, size_ := ptr.size_,
    counter_ := ptr.counter_ + 1 }

/-- `host_shared_ptr(host_shared_ptr<T>&& ptr)` (move constructor): same
member initializers as the copy constructor. -/
def move_ctor (ptr : host_shared_ptr) : host_shared_ptr :=
  { data_ := ptr.data_, host_data_ := ptr.host_data_, size_ := ptr.size_,
    counter_ := ptr.counter_ + 1 }

/-- `operator=(host_shared_ptr<T>&& r)`: assigns `data_`, `size_` and
`counter_ = r.counter_ + 1`; `host_data_` is NOT assigned and no memory is
released.  The heap is threaded through unchanged to record that the body
performs no deallocation. -/
def move_assign (h : Heap α) (p r : host_shared_ptr) :
    Heap α × host_shared_ptr :=
  (h, { p with data_ := r.data_, size_ := r.size_, counter_ := r.counter_ + 1 })

/-- `~host_shared_ptr()`: `if (--counter_ == 0) { cudaFree(data_);
if (host_data_ != nullptr) delete[] host_data_; }`.  Returns the heap after
any frees and the handle with its decremented counter. -/
def destructor (h : Heap α) (p : host_shared_ptr) : Heap α × host_shared_ptr :=
  let c := p.counter_ - 1
  if c = 0 then
    let h1 := h.cudaFree p.data_
    let h2 :=
      match p.host_data_ with
      | none => h1
      | some i => h1.deleteArr (some i)
    (h2, { p with counter_ := c })
  else
    (h, { p with counter_ := c })

/-- `host_allocate(std::size_t size)`: `host_data_ = new T[size]; size_ =
size;`.  The previous host block, if any, is not freed (the source leaks
it).  `junk` is the unspecified contents of the new block (length `size`). -/
def host_allocate (h : Heap α) (p : host_shared_ptr) (size : Nat)
    (junk : List α) : Heap α × host_shared_ptr :=
  ({ h.writeHost h.nextId junk with nextId := h.nextId + 1 },
   { p with host_data_ := some h.nextId, size_ := size })

/-- `host_allocate()`: forwards to `host_allocate(size_)`. -/
def host_allocate0 (h : Heap α) (p : host_shared_ptr) (junk : List α) :
    Heap α × host_shared_ptr :=
  host_allocate h p p.size_ junk

/-- `download()`: if the mirror is absent, `host_allocate()`; then
`cudaMemcpy(host_data_, data_, sizeof(T) * size_, cudaMemcpyDeviceToHost)`.
A copy through a null or dangling pointer is undefined behaviour; it is
modelled as leaving memory unchanged. -/
def download (h : Heap α) (p : host_shared_ptr) (junk : List α) :
    Heap α × host_shared_ptr :=
  let s :=
    match p.host_data_ with
    | none => host_allocate0 h p junk
    | some _ => (h, p)
  match s.2.host_data_, s.2.data_ with
  | some hid, some did =>
    match s.1.host hid, s.1.device did with
    | some dst, some src => (s.1.writeHost hid (memcpyList dst src s.2.size_), s.2)
    | _, _ => s
  | _, _ => s

/-- `upload()`: `cudaMemcpy(data_, host_data_, sizeof(T) * size_,
cudaMemcpyHostToDevice)`. -/
def upload (h : Heap α) (p : host_shared_ptr) : Heap α × host_shared_ptr :=
  match p.data_, p.host_data_ with
  | some did, some hid =>
    match h.device did, h.host hid with
    | some dst, some src => (h.writeDev did (memcpyList dst src p.size_), p)
    | _, _ => (h, p)
  | _, _ => (h, p)

/-- Modelled from the spec: the `device_buffer<T>` view (`device_buffer.cuh`
is not in the sources) — "a snapshot `{pointer, elementCount}` taken from a
ManagedBuffer", non-owning, passed by value into kernels. -/
structure device_buffer where
  data_ : Option Nat
  size_ : Nat

/-- `to_device()` / `device_buffer<T> device_buffer(*this)`: snapshot the
device pointer and element count. -/
def to_device (p : host_shared_ptr) : device_buffer :=
  { data_ := p.data_, size_ := p.size_ }

/-- `TILE_WIDTH` from `device_fill` and `to_bench.cu`. -/
def TILE_WIDTH : Nat := 64

/-- The grid x-dimension: `gx = (size_ + TILE_WIDTH - 1) / TILE_WIDTH`. -/
def gridX (size : Nat) : Nat := (size + TILE_WIDTH - 1) / TILE_WIDTH

/-- One thread of `kernel_fill`: `index = threadIdx.x + blockIdx.x *
blockDim.x; if (index < buffer.size_) buffer[index] = func();`.  `bx` is the
block index, `tx` the thread index inside the block, `blockDim.x =
TILE_WIDTH`.  The thread acts on the device block `mem` that
`buffer.data_` points to; an out-of-range thread performs no access. -/
def kernel_fill_thread (buf : device_buffer) (val : α) (bx tx : Nat)
    (mem : List α) : List α :=
  let index := tx + bx * TILE_WIDTH
  if index < buf.size_ then mem.set index val else mem

/-- Run a launch's threads in some serial order (all writes store the same
value, so any interleaving gives this result): a list of
(blockIdx.x, threadIdx.x) pairs acting in sequence on the device block. -/
def run_threads (buf : device_buffer) (val : α) (ts : List (Nat × Nat))
    (mem : List α) : List α :=
  ts.foldl (fun m t => kernel_fill_thread buf val t.1 t.2 m) mem

/-- The threads of a `<<<grid(gx, 1), block(TILE_WIDTH, 1)>>>` launch:
all pairs `(bx, tx)` with `bx < gx`, `tx < TILE_WIDTH`. -/
def grid_threads (gx : Nat) : List (Nat × Nat) :=
  (List.range gx).flatMap (fun bx => (List.range TILE_WIDTH).map (fun tx => (bx, tx)))

/-- The whole `kernel_fill<T><<<grid, block>>>(device_buffer, lambda)`
launch acting on the device block `mem`. -/
def kernel_fill_launch (buf : device_buffer) (val : α) (gx : Nat)
    (mem : List α) : List α :=
  run_threads buf val (grid_threads gx) mem

/-- `device_fill(const T val)`: build the view, compute `gx`, launch
`kernel_fill` with the constant lambda, synchronize.  Only the device block
that `data_` points to changes. -/
def device_fill (h : Heap α) (p : host_shared_ptr) (val : α) :
    Heap α × host_shared_ptr :=
  let buf := to_device p
  let gx := gridX p.size_
  match p.data_ with
  | some did =>
    match h.device did with
    | some mem => (h.writeDev did (kernel_fill_launch buf val gx mem), p)
    | none => (h, p)
  | none => (h, p)

/-- `host_map(std::function<T(T arg)> func)`: allocate the mirror if absent,
then `std::transform(par_unseq, host_data_, host_data_ + size_, host_data_,
func)` — replace the first `size_` elements in place. -/
def host_map (h : Heap α) (p : host_shared_ptr) (func : α → α)
    (junk : List α) : Heap α × host_shared_ptr :=
  let s :=
    match p.host_data_ with
    | none => host_allocate0 h p junk
    | some _ => (h, p)
  match s.2.host_data_ with
  | some hid =>
    match s.1.host hid with
    | some c =>
        (s.1.writeHost hid ((c.take s.2.size_).map func ++ c.drop s.2.size_), s.2)
    | none => s
  | none => s

/-- `host_fill(const T val)`: `host_map` with the constant lambda. -/
def host_fill (h : Heap α) (p : host_shared_ptr) (val : α) (junk : List α) :
    Heap α × host_shared_ptr :=
  host_map h p (fun _ => val) junk

/-- `copy()`: `host_shared_ptr<T> cp(this->size_)` (fresh device block),
device-to-device `cudaMemcpy`, and if the mirror is present,
`cp.host_allocate()` plus `std::copy` of the mirror.  `djunk` / `hjunk` are
the unspecified contents of the fresh blocks. -/
def copy (h : Heap α) (p : host_shared_ptr) (djunk hjunk : List α) :
    Heap α × host_shared_ptr :=
  let s := sized_ctor h p.size_ djunk
  let cp := s.2
  let h1 :=
    match cp.data_, p.data_ with
    | some cdid, some did =>
      match s.1.device cdid, s.1.device did with
      | some dst, some src => s.1.writeDev cdid (memcpyList dst src p.size_)
      | _, _ => s.1
    | _, _ => s.1
  if p.host_data_ = none then
    (h1, cp)
  else
    let s2 := host_allocate0 h1 cp hjunk
    match s2.2.host_data_, p.host_data_ with
    | some chid, some hid =>
      match s2.1.host chid, s2.1.host hid with
      | some dst, some src =>
          (s2.1.writeHost chid (memcpyList dst src p.size_), s2.2)
      | _, _ => s2
    | _, _ => s2

/-- The experiment of the spec's fill-correctness property:
`deviceFill(v)` then `download()`. -/
def fill_then_download (h : Heap α) (p : host_shared_ptr) (v : α)
    (junk : List α) : Heap α × host_shared_ptr :=
  let s := device_fill h p v
  download s.1 s.2 junk

/-- The experiment of the spec's round-trip property: `upload()`, then
`deviceFill(w)`, then `download()`. -/
def upload_fill_download (h : Heap α) (p : host_shared_ptr) (w : α)
    (junk : List α) : Heap α × host_shared_ptr :=
  let s1 := upload h p
  let s2 := device_fill s1.1 s1.2 w
  download s2.1 s2.2 junk

/-! ## Lemmas about the launch machinery -/

theorem length_kernel_fill_thread (buf : device_buffer) (val : α) (bx tx : Nat)
    (mem : List α) :
    (kernel_fill_thread buf val bx tx mem).length = mem.length := by
  simp only [kernel_fill_thread]
  split <;> simp

theorem kernel_fill_thread_getElem? (buf : device_buffer) (val : α)
    (bx tx : Nat) (mem : List α) (i : Nat) :
    (kernel_fill_thread buf val bx tx mem)[i]? =
      if tx + bx * TILE_WIDTH < buf.size_ ∧ tx + bx * TILE_WIDTH = i ∧ i < mem.length
      then some val else mem[i]? := by
  simp only [kernel_fill_thread]
  rw [apply_ite (fun l : List α => l[i]?), List.getElem?_set]
  split_ifs <;>
    first
      | rfl
      | omega
      | rw [List.getElem?_eq_none (by omega)]

theorem run_threads_getElem? (buf : device_buffer) (val : α)
    (ts : List (Nat × Nat)) (mem : List α) (i : Nat) :
    (run_threads buf val ts mem)[i]? =
      if i < buf.size_ ∧ i < mem.length ∧ ∃ t ∈ ts, t.2 + t.1 * TILE_WIDTH = i
      then some val else mem[i]? := by
  induction ts generalizing mem with
  | nil => simp [run_threads]
  | cons t ts ih =>
    have hstep : run_threads buf val (t :: ts) mem =
        run_threads buf val ts (kernel_fill_thread buf val t.1 t.2 mem) := rfl
    rw [hstep, ih, length_kernel_fill_thread, kernel_fill_thread_getElem?]
    have hC : (i < buf.size_ ∧ i < mem.length ∧
          ∃ u ∈ t :: ts, u.2 + u.1 * TILE_WIDTH = i) ↔
        ((i < buf.size_ ∧ i < mem.length ∧
            ∃ u ∈ ts, u.2 + u.1 * TILE_WIDTH = i) ∨
          (t.2 + t.1 * TILE_WIDTH < buf.size_ ∧
            t.2 + t.1 * TILE_WIDTH = i ∧ i < mem.length)) := by
      constructor
      · rintro ⟨h1, h2, u, hu, hp⟩
        rcases List.mem_cons.1 hu with rfl | hu2
        · right
          exact ⟨hp ▸ h1, hp, h2⟩
        · left
          exact ⟨h1, h2, u, hu2, hp⟩
      · rintro (⟨h1, h2, u, hu, hp⟩ | ⟨h1, h2, h3⟩)
        · exact ⟨h1, h2, u, List.mem_cons_of_mem _ hu, hp⟩
        · exact ⟨h2 ▸ h1, h3, t, List.mem_cons_self t ts, h2⟩
    by_cases hA : i < buf.size_ ∧ i < mem.length ∧
        ∃ u ∈ ts, u.2 + u.1 * TILE_WIDTH = i
    · rw [if_pos hA, if_pos (hC.2 (Or.inl hA))]
    · rw [if_neg hA]
      by_cases hB : t.2 + t.1 * TILE_WIDTH < buf.size_ ∧
          t.2 + t.1 * TILE_WIDTH = i ∧ i < mem.length
      · rw [if_pos hB, if_pos (hC.2 (Or.inr hB))]
      · rw [if_neg hB, if_neg (fun hc => (hC.1 hc).elim hA hB)]

theorem mem_grid_threads (gx : Nat) (t : Nat × Nat) :
    t ∈ grid_threads gx ↔ t.1 < gx ∧ t.2 < TILE_WIDTH := by
  unfold grid_threads
  constructor
  · intro h
    rcases List.mem_flatMap.1 h with ⟨bx, hbx, hmem⟩
    rcases List.mem_map.1 hmem with ⟨tx, htx, hteq⟩
    subst hteq
    exact ⟨List.mem_range.1 hbx, List.mem_range.1 htx⟩
  · intro ⟨h1, h2⟩
    refine List.mem_flatMap.2 ⟨t.1, List.mem_range.2 h1, ?_⟩
    exact List.mem_map.2 ⟨t.2, List.mem_range.2 h2, rfl⟩

theorem grid_threads_covers (gx i : Nat) :
    (∃ t ∈ grid_threads gx, t.2 + t.1 * TILE_WIDTH = i) ↔ i < gx * TILE_WIDTH := by
  constructor
  · intro ⟨t, hmem, heq⟩
    rcases (mem_grid_threads gx t).1 hmem with ⟨h1, h2⟩
    simp only [TILE_WIDTH] at h2 heq ⊢
    omega
  · intro h
    refine ⟨(i / TILE_WIDTH, i % TILE_WIDTH),
      (mem_grid_threads gx _).2 ⟨?_, ?_⟩, ?_⟩ <;>
      simp only [TILE_WIDTH] at h ⊢ <;> omega

theorem size_le_grid (s : Nat) : s ≤ gridX s * TILE_WIDTH := by
  unfold gridX TILE_WIDTH
  have h1 := Nat.div_add_mod (s + 64 - 1) 64
  have h2 : (s + 64 - 1) % 64 < 64 := Nat.mod_lt _ (by decide)
  omega

theorem kernel_fill_launch_getElem? (buf : device_buffer) (val : α) (gx : Nat)
    (mem : List α) (i : Nat) :
    (kernel_fill_launch buf val gx mem)[i]? =
      if i < buf.size_ ∧ i < mem.length ∧ i < gx * TILE_WIDTH
      then some val else mem[i]? := by
  unfold kernel_fill_launch
  rw [run_threads_getElem?]
  have hiff : (i < buf.size_ ∧ i < mem.length ∧
        ∃ t ∈ grid_threads gx, t.2 + t.1 * TILE_WIDTH = i) ↔
      (i < buf.size_ ∧ i < mem.length ∧ i < gx * TILE_WIDTH) := by
    rw [grid_threads_covers]
  by_cases hc : i < buf.size_ ∧ i < mem.length ∧ i < gx * TILE_WIDTH
  · rw [if_pos (hiff.2 hc), if_pos hc]
  · rw [if_neg (fun hx => hc (hiff.1 hx)), if_neg hc]

theorem kernel_fill_launch_eq_replicate (buf : device_buffer) (val : α)
    (mem : List α) (hlen : mem.length = buf.size_) :
    kernel_fill_launch buf val (gridX buf.size_) mem =
      List.replicate buf.size_ val := by
  apply List.ext_getElem?
  intro i
  rw [kernel_fill_launch_getElem?]
  by_cases hi : i < buf.size_
  · have hg : i < gridX buf.size_ * TILE_WIDTH :=
      Nat.lt_of_lt_of_le hi (size_le_grid buf.size_)
    simp [hi, hlen, hg, List.getElem?_replicate]
  · have hnone : mem[i]? = none := by
      rw [List.getElem?_eq_none]
      omega
    simp [hi, hnone, List.getElem?_replicate]

/-! ## Step lemmas for the handle operations -/

theorem device_fill_eq (h : Heap α) (p : host_shared_ptr) (val : α)
    (did : Nat) (mem : List α)
    (hd : p.data_ = some did) (hm : h.device did = some mem) :
    device_fill h p val =
      (h.writeDev did
        (kernel_fill_launch (to_device p) val (gridX p.size_) mem), p) := by
  unfold device_fill
  simp only [hd, hm]

theorem device_fill_host_frame (h : Heap α) (p : host_shared_ptr) (val : α) :
    (device_fill h p val).1.host = h.host ∧ (device_fill h p val).2 = p := by
  obtain ⟨pd, ph, ps, pc⟩ := p
  unfold device_fill
  cases pd with
  | none => exact ⟨rfl, rfl⟩
  | some did =>
    dsimp only
    rcases hm : h.device did with _ | mem
    · simp [hm]
    · simp [hm, Heap.writeDev]

theorem upload_eq (h : Heap α) (p : host_shared_ptr)
    (did hid : Nat) (dst src : List α)
    (hd : p.data_ = some did) (hh : p.host_data_ = some hid)
    (hdst : h.device did = some dst) (hsrc : h.host hid = some src) :
    upload h p = (h.writeDev did (memcpyList dst src p.size_), p) := by
  unfold upload
  simp only [hd, hh, hdst, hsrc]

theorem download_present_eq (h : Heap α) (p : host_shared_ptr) (junk : List α)
    (did hid : Nat) (dst src : List α)
    (hd : p.data_ = some did) (hh : p.host_data_ = some hid)
    (hdst : h.host hid = some dst) (hsrc : h.device did = some src) :
    download h p junk = (h.writeHost hid (memcpyList dst src p.size_), p) := by
  unfold download
  simp only [hd, hh, hdst, hsrc]

theorem download_absent_eq (h : Heap α) (p : host_shared_ptr) (junk : List α)
    (did : Nat) (src : List α)
    (hd : p.data_ = some did) (hh : p.host_data_ = none)
    (hsrc : h.device did = some src) (hjunk : junk.length = p.size_) :
    download h p junk =
      (({ h.writeHost h.nextId junk with nextId := h.nextId + 1 } :
          Heap α).writeHost h.nextId (memcpyList junk src p.size_),
       { p with host_data_ := some h.nextId }) := by
  obtain ⟨pd, ph, ps, pc⟩ := p
  simp only at hd hh hsrc hjunk ⊢
  subst hd
  subst hh
  unfold download host_allocate0 host_allocate
  simp [Heap.writeHost, hsrc]

theorem host_map_present_eq (h : Heap α) (p : host_shared_ptr)
    (func : α → α) (junk : List α) (hid : Nat) (c : List α)
    (hh : p.host_data_ = some hid) (hc : h.host hid = some c) :
    host_map h p func junk =
      (h.writeHost hid ((c.take p.size_).map func ++ c.drop p.size_), p) := by
  unfold host_map
  simp only [hh, hc]

/-! ## Claim theorems -/

/-- Claim C1 (code bug in the source): the spec requires the device
allocation to be freed only when the last sharing handle dies, but the
share counter is a plain field copied by value.  Concretely: `a` is built
with size 4 (device allocation id 0, live), `b` is copy-constructed from
`a` (so `b` is alive with counter 2 and shares allocation 0), yet
destroying `a` (whose own counter is still 1) already frees allocation 0. -/
theorem C1_premature_free :
    (sized_ctor (emptyHeap Int) 4 [0, 0, 0, 0]).1.device 0 =
      some [0, 0, 0, 0] ∧
    (sized_ctor (emptyHeap Int) 4 [0, 0, 0, 0]).2.counter_ = 1 ∧
    (copy_ctor (sized_ctor (emptyHeap Int) 4 [0, 0, 0, 0]).2).counter_ = 2 ∧
    (copy_ctor (sized_ctor (emptyHeap Int) 4 [0, 0, 0, 0]).2).data_ =
      some 0 ∧
    (destructor (sized_ctor (emptyHeap Int) 4 [0, 0, 0, 0]).1
        (sized_ctor (emptyHeap Int) 4 [0, 0, 0, 0]).2).1.device 0 = none := by
  refine ⟨?_, rfl, rfl, rfl, ?_⟩ <;> rfl

/-- Claim C5 counterexample: move-assignment does NOT replace the host
mirror pointer with `other`'s — the source's `operator=` assigns only
`data_`, `size_` and `counter_`.  Here `this` has mirror id 5 and `other`
has mirror id 9; after assignment the mirror pointer is still 5. -/
theorem C5_counterexample :
    (move_assign (emptyHeap Int) ⟨some 1, some 5, 4, 1⟩
        ⟨some 2, some 9, 4, 1⟩).2.host_data_ ≠ some 9 := by
  decide

/-- Claim C5 (amended): move-assignment replaces this handle's device
pointer and size with `other`'s and sets this handle's counter to `other`'s
plus one, but leaves the host-mirror pointer unchanged; it releases
nothing — both memory spaces are untouched. -/
theorem C5_move_assign (α : Type) (h : Heap α) (p r : host_shared_ptr) :
    move_assign h p r =
      (h, { data_ := r.data_, host_data_ := p.host_data_, size_ := r.size_,
            counter_ := r.counter_ + 1 }) :=
  rfl

/-- Claim C9: `host_allocate(n)` leaves the handle with `size_ = n` and a
mirror of exactly `n` elements (the fresh block's unspecified contents),
and the zero-argument form is `host_allocate(size_)`. -/
theorem C9_host_allocate (h : Heap α) (p : host_shared_ptr) (n : Nat)
    (junk : List α) (hjunk : junk.length = n) :
    (host_allocate h p n junk).2.size_ = n ∧
    (host_allocate h p n junk).2.host_data_ = some h.nextId ∧
    (∃ m, (host_allocate h p n junk).1.host h.nextId = some m ∧
      m.length = n) ∧
    host_allocate0 h p junk = host_allocate h p p.size_ junk := by
  refine ⟨rfl, rfl, ⟨junk, ?_, hjunk⟩, rfl⟩
  simp [host_allocate, Heap.writeHost]

/-- Witness for C9 at `n = 2`. -/
theorem C9_host_allocate_witness :
    (host_allocate (emptyHeap Int) default_ctor 2 [0, 0]).2.size_ = 2 ∧
    (host_allocate (emptyHeap Int) default_ctor 2 [0, 0]).2.host_data_ =
      some 0 ∧
    (∃ m, (host_allocate (emptyHeap Int) default_ctor 2 [0, 0]).1.host 0 =
      some m ∧ m.length = 2) ∧
    host_allocate0 (emptyHeap Int) default_ctor [0, 0] =
      host_allocate (emptyHeap Int) default_ctor default_ctor.size_ [0, 0] :=
  C9_host_allocate (emptyHeap Int) default_ctor 2 [0, 0] rfl

/-- Claim C10: a default-constructed handle has size 0, null device and
host pointers and counter 1; destroying it reaches counter 0, frees the
null device pointer (a no-op) and skips the mirror branch, so the heap is
returned exactly as given. -/
theorem C10_default_destroy (α : Type) (h : Heap α) :
    default_ctor.size_ = 0 ∧ default_ctor.data_ = none ∧
    default_ctor.host_data_ = none ∧ default_ctor.counter_ = 1 ∧
    destructor h default_ctor = (h, { default_ctor with counter_ := 0 }) := by
  refine ⟨rfl, rfl, rfl, rfl, ?_⟩
  rfl

/-- Claim C8: `host_map` with the identity function leaves every element of
the host mirror (and everything else in host memory, and the handle)
unchanged, for any buffer whose mirror is allocated. -/
theorem C8_host_map_identity (h : Heap α) (p : host_shared_ptr)
    (junk : List α) (hid : Nat) (hh : p.host_data_ = some hid) :
    (host_map h p (fun x => x) junk).2 = p ∧
    ∀ i, (host_map h p (fun x => x) junk).1.host i = h.host i := by
  rcases hc : h.host hid with _ | c
  · unfold host_map
    simp [hh, hc]
  · rw [host_map_present_eq h p _ junk hid c hh hc]
    refine ⟨rfl, ?_⟩
    intro i
    simp only [List.map_id', List.take_append_drop, Heap.writeHost]
    by_cases hi : i = hid
    · subst hi
      simp [hc]
    · simp [hi]

/-- Witness for C8: a two-element mirror `[3, 4]` at host id 0. -/
theorem C8_host_map_identity_witness :
    (host_map
        ({ device := fun _ => none,
           host := fun j => if j = 0 then some [3, 4] else none,
           nextId := 1 } : Heap Int)
        ⟨none, some 0, 2, 1⟩ (fun x => x) []).2 = ⟨none, some 0, 2, 1⟩ ∧
    (host_map
        ({ device := fun _ => none,
           host := fun j => if j = 0 then some [3, 4] else none,
           nextId := 1 } : Heap Int)
        ⟨none, some 0, 2, 1⟩ (fun x => x) []).1.host 0 = some [3, 4] :=
  ⟨(C8_host_map_identity _ _ _ 0 rfl).1,
   (C8_host_map_identity _ _ _ 0 rfl).2 0⟩

/-- Claim C6: constructing with size 0 succeeds (the handle has `size_ = 0`
and a live zero-length device allocation), `deviceFill`'s grid is computed
with zero tiles (`gx = 0`, so the launch has no threads), the launch writes
no element of any device block, and device memory is unchanged. -/
theorem C6_zero_size (α : Type) (h : Heap α) (v : α) :
    gridX 0 = 0 ∧
    grid_threads (gridX 0) = [] ∧
    (sized_ctor h 0 []).2.size_ = 0 ∧
    (sized_ctor h 0 []).2.data_ = some h.nextId ∧
    (sized_ctor h 0 []).1.device h.nextId = some [] ∧
    (∀ mem : List α,
      kernel_fill_launch (to_device (sized_ctor h 0 []).2) v
        (gridX (sized_ctor h 0 []).2.size_) mem = mem) ∧
    (device_fill (sized_ctor h 0 []).1 (sized_ctor h 0 []).2 v).2 =
      (sized_ctor h 0 []).2 ∧
    ∀ j, (device_fill (sized_ctor h 0 []).1 (sized_ctor h 0 []).2 v).1.device j =
      (sized_ctor h 0 []).1.device j := by
  have hdev : (sized_ctor h 0 ([] : List α)).1.device h.nextId = some [] := by
    simp [sized_ctor, device_allocate, Heap.writeDev]
  have hsize : (sized_ctor h 0 ([] : List α)).2.size_ = 0 := rfl
  have hgx : gridX (sized_ctor h 0 ([] : List α)).2.size_ = 0 := by
    rw [hsize]
    rfl
  have hlaunch : ∀ mem : List α,
      kernel_fill_launch (to_device (sized_ctor h 0 ([] : List α)).2) v
        (gridX (sized_ctor h 0 ([] : List α)).2.size_) mem = mem := by
    intro mem
    rw [hgx]
    rfl
  have hfill := device_fill_eq (sized_ctor h 0 ([] : List α)).1
    (sized_ctor h 0 ([] : List α)).2 v h.nextId [] rfl hdev
  refine ⟨rfl, rfl, rfl, rfl, hdev, hlaunch, ?_, ?_⟩
  · rw [hfill]
  · intro j
    rw [hfill]
    by_cases hj : j = h.nextId
    · subst hj
      rw [hlaunch]
      simp [Heap.writeDev, hdev]
    · simp [Heap.writeDev, hj]

/-! ## Heap access helpers -/

@[simp]
theorem writeDev_device_self (h : Heap α) (i : Nat) (l : List α) :
    (h.writeDev i l).device i = some l := by
  simp [Heap.writeDev]

theorem writeDev_device_ne (h : Heap α) (i : Nat) (l : List α) (j : Nat)
    (hj : j ≠ i) : (h.writeDev i l).device j = h.device j := by
  simp [Heap.writeDev, hj]

@[simp]
theorem writeDev_host (h : Heap α) (i : Nat) (l : List α) :
    (h.writeDev i l).host = h.host := rfl

@[simp]
theorem writeDev_nextId (h : Heap α) (i : Nat) (l : List α) :
    (h.writeDev i l).nextId = h.nextId := rfl

@[simp]
theorem writeHost_host_self (h : Heap α) (i : Nat) (l : List α) :
    (h.writeHost i l).host i = some l := by
  simp [Heap.writeHost]

theorem writeHost_host_ne (h : Heap α) (i : Nat) (l : List α) (j : Nat)
    (hj : j ≠ i) : (h.writeHost i l).host j = h.host j := by
  simp [Heap.writeHost, hj]

@[simp]
theorem writeHost_device (h : Heap α) (i : Nat) (l : List α) :
    (h.writeHost i l).device = h.device := rfl

@[simp]
theorem writeHost_nextId (h : Heap α) (i : Nat) (l : List α) :
    (h.writeHost i l).nextId = h.nextId := rfl

/-- A `memcpy` of `n` elements into a block of exactly `n` elements from a
source of exactly `n` elements is the source. -/
theorem memcpyList_full (dst src : List α) (n : Nat)
    (hs : src.length = n) (hd2 : dst.length = n) :
    memcpyList dst src n = src := by
  unfold memcpyList
  have h1 : dst.drop n = [] := List.drop_eq_nil_of_le (by omega)
  have h2 : src.take n = src := List.take_of_length_le (by omega)
  rw [h1, h2, List.append_nil]

/-- Claim C7: the launch partitions the `N` elements into
`ceil(N / 64)` tiles of `TILE_WIDTH = 64` threads (the grid size `gx` is
characterized by `N ≤ gx * 64 < N + 64`); an in-range thread writes exactly
its own linear index `threadIdx.x + blockIdx.x * 64`, an out-of-range
thread performs no access, and every in-range index is covered by exactly
one thread of the grid, so over-provisioned launches are safe and each
element is written exactly once. -/
theorem C7_tiling_exactly_once (N : Nat) (v : α) (buf : device_buffer) :
    (TILE_WIDTH = 64 ∧ N ≤ gridX N * TILE_WIDTH ∧
      gridX N * TILE_WIDTH < N + TILE_WIDTH) ∧
    (∀ bx tx (mem : List α), tx + bx * TILE_WIDTH < buf.size_ →
      kernel_fill_thread buf v bx tx mem =
        mem.set (tx + bx * TILE_WIDTH) v) ∧
    (∀ bx tx (mem : List α), buf.size_ ≤ tx + bx * TILE_WIDTH →
      kernel_fill_thread buf v bx tx mem = mem) ∧
    (∀ i, i < N → ∃! t : Nat × Nat,
      t ∈ grid_threads (gridX N) ∧ t.2 + t.1 * TILE_WIDTH = i) := by
  refine ⟨⟨rfl, ?_, ?_⟩, ?_, ?_, ?_⟩
  · exact size_le_grid N
  · simp only [gridX, TILE_WIDTH]
    have h1 := Nat.div_add_mod (N + 64 - 1) 64
    have h2 : (N + 64 - 1) % 64 < 64 := Nat.mod_lt _ (by decide)
    omega
  · intro bx tx mem hlt
    simp [kernel_fill_thread, hlt]
  · intro bx tx mem hge
    simp [kernel_fill_thread, Nat.not_lt.2 hge]
  · intro i hi
    have hcov : i < gridX N * TILE_WIDTH :=
      Nat.lt_of_lt_of_le hi (size_le_grid N)
    refine ⟨(i / TILE_WIDTH, i % TILE_WIDTH), ⟨?_, ?_⟩, ?_⟩
    · refine (mem_grid_threads _ _).2 ⟨?_, ?_⟩ <;>
        simp only [TILE_WIDTH] at hcov ⊢ <;> omega
    · simp only [TILE_WIDTH] at hcov ⊢
      omega
    · rintro ⟨bx, tx⟩ ⟨hmem, heq⟩
      rcases (mem_grid_threads _ _).1 hmem with ⟨h1, h2⟩
      simp only [TILE_WIDTH] at h2 heq ⊢
      simp only [Prod.mk.injEq]
      constructor <;> omega

/-- Claim C2: for a buffer of `elementCount` `p.size_` with a live device
allocation, `deviceFill(v)` followed by `download()` leaves the handle with
an allocated mirror whose contents are exactly `p.size_` copies of `v`
(whether the mirror already existed or is freshly allocated by
`download`). -/
theorem C2_fill_then_download (h : Heap α) (p : host_shared_ptr) (v : α)
    (junk : List α) (did : Nat) (dl : List α)
    (hd : p.data_ = some did) (hdl : h.device did = some dl)
    (hldl : dl.length = p.size_) (hjunk : junk.length = p.size_)
    (hmir : p.host_data_ = none ∨
      ∃ hid m, p.host_data_ = some hid ∧ h.host hid = some m ∧
        m.length = p.size_) :
    ∃ hid2, (fill_then_download h p v junk).2.host_data_ = some hid2 ∧
      (fill_then_download h p v junk).1.host hid2 =
        some (List.replicate p.size_ v) := by
  have hrep : kernel_fill_launch (to_device p) v (gridX p.size_) dl =
      List.replicate p.size_ v :=
    kernel_fill_launch_eq_replicate (to_device p) v dl hldl
  have hfill : device_fill h p v =
      (h.writeDev did (List.replicate p.size_ v), p) := by
    rw [device_fill_eq h p v did dl hd hdl, hrep]
  have hexp : fill_then_download h p v junk =
      download (h.writeDev did (List.replicate p.size_ v)) p junk := by
    unfold fill_then_download
    rw [hfill]
  rcases hmir with hh | ⟨hid, m, hh, hm, hlm⟩
  · have hdown := download_absent_eq (h.writeDev did (List.replicate p.size_ v))
      p junk did (List.replicate p.size_ v) hd hh (by simp) hjunk
    refine ⟨h.nextId, ?_, ?_⟩
    · rw [hexp, hdown]
      simp
    · rw [hexp, hdown]
      have hcp : memcpyList junk (List.replicate p.size_ v) p.size_ =
          List.replicate p.size_ v :=
        memcpyList_full junk (List.replicate p.size_ v) p.size_
          (List.length_replicate p.size_ v) hjunk
      simp [hcp]
  · have hdown := download_present_eq (h.writeDev did (List.replicate p.size_ v))
      p junk did hid m (List.replicate p.size_ v) hd hh (by simp [hm]) (by simp)
    refine ⟨hid, ?_, ?_⟩
    · rw [hexp, hdown]
      exact hh
    · rw [hexp, hdown]
      have hcp : memcpyList m (List.replicate p.size_ v) p.size_ =
          List.replicate p.size_ v :=
        memcpyList_full m (List.replicate p.size_ v) p.size_
          (List.length_replicate p.size_ v) hlm
      simp [hcp]

/-- Witness for C2 at the spec's example: size 8, `v = 42`, fresh mirror. -/
theorem C2_fill_then_download_witness :
    ∃ hid2, (fill_then_download
        ({ device := fun j => if j = 0 then some [1, 2, 3, 4, 5, 6, 7, 8]
             else none,
           host := fun _ => none, nextId := 1 } : Heap Int)
        ⟨some 0, none, 8, 1⟩ 42 [0, 0, 0, 0, 0, 0, 0, 0]).2.host_data_ =
      some hid2 ∧
      (fill_then_download
        ({ device := fun j => if j = 0 then some [1, 2, 3, 4, 5, 6, 7, 8]
             else none,
           host := fun _ => none, nextId := 1 } : Heap Int)
        ⟨some 0, none, 8, 1⟩ 42 [0, 0, 0, 0, 0, 0, 0, 0]).1.host hid2 =
        some (List.replicate 8 42) :=
  C2_fill_then_download _ _ 42 _ 0 [1, 2, 3, 4, 5, 6, 7, 8] rfl rfl rfl rfl
    (Or.inl rfl)

/-- Claim C3: `deviceFill` never touches host memory or the handle (its
only effect is on the device block), and the round trip `upload()`, then
`deviceFill(w)`, then `download()` leaves the mirror holding exactly the
device fill `w`, regardless of the arbitrary data `m` the mirror held. -/
theorem C3_device_fill_no_host_effect (h : Heap α) (p : host_shared_ptr)
    (w : α) (junk : List α) (did hid : Nat) (dl m : List α)
    (hd : p.data_ = some did) (hh : p.host_data_ = some hid)
    (hdl : h.device did = some dl) (hm : h.host hid = some m)
    (hldl : dl.length = p.size_) (hlm : m.length = p.size_) :
    (∀ (g : Heap α) (q : host_shared_ptr) (x : α),
      (device_fill g q x).1.host = g.host ∧ (device_fill g q x).2 = q) ∧
    (upload_fill_download h p w junk).2.host_data_ = some hid ∧
    (upload_fill_download h p w junk).1.host hid =
      some (List.replicate p.size_ w) := by
  refine ⟨fun g q x => device_fill_host_frame g q x, ?_, ?_⟩ <;>
  · have hup : upload h p = (h.writeDev did m, p) := by
      rw [upload_eq h p did hid dl m hd hh hdl hm,
        memcpyList_full dl m p.size_ hlm hldl]
    have hrep : kernel_fill_launch (to_device p) w (gridX p.size_) m =
        List.replicate p.size_ w :=
      kernel_fill_launch_eq_replicate (to_device p) w m hlm
    have hfill : device_fill (h.writeDev did m) p w =
        ((h.writeDev did m).writeDev did (List.replicate p.size_ w), p) := by
      rw [device_fill_eq (h.writeDev did m) p w did m hd (by simp), hrep]
    have hdown := download_present_eq
      ((h.writeDev did m).writeDev did (List.replicate p.size_ w)) p junk
      did hid m (List.replicate p.size_ w) hd hh (by simp [hm]) (by simp)
    have hexp : upload_fill_download h p w junk =
        download ((h.writeDev did m).writeDev did (List.replicate p.size_ w))
          p junk := by
      unfold upload_fill_download
      rw [hup]
      dsimp only
      rw [hfill]
    rw [hexp, hdown]
    simp [hh, memcpyList_full m (List.replicate p.size_ w) p.size_
      (List.length_replicate p.size_ w) hlm]

/-- Witness for C3: mirror `[3, 4]` at host id 1, device block `[5, 6]` at
device id 0, filled with 9. -/
theorem C3_device_fill_no_host_effect_witness :
    (upload_fill_download
        ({ device := fun j => if j = 0 then some [5, 6] else none,
           host := fun j => if j = 1 then some [3, 4] else none,
           nextId := 2 } : Heap Int)
        ⟨some 0, some 1, 2, 1⟩ 9 []).2.host_data_ = some 1 ∧
    (upload_fill_download
        ({ device := fun j => if j = 0 then some [5, 6] else none,
           host := fun j => if j = 1 then some [3, 4] else none,
           nextId := 2 } : Heap Int)
        ⟨some 0, some 1, 2, 1⟩ 9 []).1.host 1 =
      some (List.replicate 2 (9 : Int)) :=
  ⟨(C3_device_fill_no_host_effect _ _ 9 [] 0 1 [5, 6] [3, 4]
      rfl rfl rfl rfl rfl rfl).2.1,
   (C3_device_fill_no_host_effect _ _ 9 [] 0 1 [5, 6] [3, 4]
      rfl rfl rfl rfl rfl rfl).2.2⟩

/-- `copy()` on a buffer with no host mirror: a fresh device block holding
a copy of the source's device contents, and a handle owning it with a
fresh share count and no mirror. -/
theorem copy_absent_eq (h : Heap α) (p : host_shared_ptr)
    (djunk hjunk : List α) (did : Nat) (dl : List α)
    (hd : p.data_ = some did) (hh : p.host_data_ = none)
    (hdl : h.device did = some dl) (hdid : did ≠ h.nextId) :
    copy h p djunk hjunk =
      ({ (h.writeDev h.nextId djunk : Heap α).writeDev h.nextId
            (memcpyList djunk dl p.size_) with nextId := h.nextId + 1 },
       { data_ := some h.nextId, host_data_ := none, size_ := p.size_,
         counter_ := 1 }) := by
  obtain ⟨pd, ph, ps, pc⟩ := p
  simp only at hd hh ⊢
  subst hd
  subst hh
  unfold copy sized_ctor device_allocate
  dsimp only
  rw [writeDev_device_ne h h.nextId djunk did hdid, hdl]
  simp [default_ctor]
  rfl

/-- `copy()` on a buffer with a live host mirror: additionally a fresh host
block holding a copy of the mirror. -/
theorem copy_present_eq (h : Heap α) (p : host_shared_ptr)
    (djunk hjunk : List α) (did hid : Nat) (dl m : List α)
    (hd : p.data_ = some did) (hh : p.host_data_ = some hid)
    (hdl : h.device did = some dl) (hm : h.host hid = some m)
    (hdid : did ≠ h.nextId) (hhid : hid ≠ h.nextId + 1) :
    copy h p djunk hjunk =
      ({ ((h.writeDev h.nextId djunk : Heap α).writeDev h.nextId
            (memcpyList djunk dl p.size_)
          |>.writeHost (h.nextId + 1) hjunk
          |>.writeHost (h.nextId + 1) (memcpyList hjunk m p.size_))
          with nextId := h.nextId + 2 },
       { data_ := some h.nextId, host_data_ := some (h.nextId + 1),
         size_ := p.size_, counter_ := 1 }) := by
  obtain ⟨pd, ph, ps, pc⟩ := p
  simp only at hd hh ⊢
  subst hd
  subst hh
  unfold copy sized_ctor device_allocate host_allocate0 host_allocate
  dsimp only
  rw [writeDev_device_ne h h.nextId djunk did hdid, hdl]
  simp [default_ctor, hm, writeHost_host_ne _ (h.nextId + 1) hjunk hid hhid]
  rfl

/-- Claim C4: `copy()` returns a brand-new, independently owned buffer: a
fresh device allocation of the same element count holding a copy of the
source's device contents, a freshly allocated independently copied host
mirror exactly when the source's mirror is present, sharing no allocation
id with the source; and a subsequent `hostFill(v)` on the copy leaves the
original's mirror unchanged, and vice versa. -/
theorem C4_copy_independence (h : Heap α) (p : host_shared_ptr) (v : α)
    (djunk hjunk : List α) (did : Nat) (dl : List α)
    (hd : p.data_ = some did) (hdl : h.device did = some dl)
    (hldl : dl.length = p.size_) (hldj : djunk.length = p.size_)
    (hlhj : hjunk.length = p.size_) (hdid : did < h.nextId) :
    (p.host_data_ = none →
      (copy h p djunk hjunk).2.host_data_ = none ∧
      (copy h p djunk hjunk).2.data_ = some h.nextId ∧
      p.data_ ≠ (copy h p djunk hjunk).2.data_ ∧
      (copy h p djunk hjunk).2.size_ = p.size_ ∧
      (copy h p djunk hjunk).1.device h.nextId = some dl ∧
      (copy h p djunk hjunk).1.device did = some dl) ∧
    (∀ hid m, p.host_data_ = some hid → h.host hid = some m →
      m.length = p.size_ → hid < h.nextId →
      (copy h p djunk hjunk).2.data_ = some h.nextId ∧
      p.data_ ≠ (copy h p djunk hjunk).2.data_ ∧
      (copy h p djunk hjunk).2.size_ = p.size_ ∧
      (copy h p djunk hjunk).2.host_data_ = some (h.nextId + 1) ∧
      p.host_data_ ≠ (copy h p djunk hjunk).2.host_data_ ∧
      (copy h p djunk hjunk).1.device h.nextId = some dl ∧
      (copy h p djunk hjunk).1.device did = some dl ∧
      (copy h p djunk hjunk).1.host (h.nextId + 1) = some m ∧
      (copy h p djunk hjunk).1.host hid = some m ∧
      (host_fill (copy h p djunk hjunk).1 (copy h p djunk hjunk).2 v
        []).1.host hid = some m ∧
      (host_fill (copy h p djunk hjunk).1 p v []).1.host (h.nextId + 1) =
        some m) := by
  have hne1 : did ≠ h.nextId := by omega
  have hcpy : memcpyList djunk dl p.size_ = dl :=
    memcpyList_full djunk dl p.size_ hldl hldj
  constructor
  · intro habs
    rw [copy_absent_eq h p djunk hjunk did dl hd habs hdl hne1]
    refine ⟨rfl, rfl, ?_, rfl, ?_, ?_⟩
    · rw [hd]
      simp
      omega
    · simp [hcpy]
    · simp [writeDev_device_ne _ _ _ _ hne1, hdl]
  · intro hid m hpres hm hlm hhid
    have hne2 : hid ≠ h.nextId + 1 := by omega
    have hcph : memcpyList hjunk m p.size_ = m :=
      memcpyList_full hjunk m p.size_ hlm hlhj
    rw [copy_present_eq h p djunk hjunk did hid dl m hd hpres hdl hm hne1 hne2]
    have hhostfresh :
        (({ ((h.writeDev h.nextId djunk : Heap α).writeDev h.nextId
              (memcpyList djunk dl p.size_)
            |>.writeHost (h.nextId + 1) hjunk
            |>.writeHost (h.nextId + 1) (memcpyList hjunk m p.size_))
            with nextId := h.nextId + 2 } : Heap α).host (h.nextId + 1)) =
          some m := by
      simp [hcph]
    have hhosthid :
        (({ ((h.writeDev h.nextId djunk : Heap α).writeDev h.nextId
              (memcpyList djunk dl p.size_)
            |>.writeHost (h.nextId + 1) hjunk
            |>.writeHost (h.nextId + 1) (memcpyList hjunk m p.size_))
            with nextId := h.nextId + 2 } : Heap α).host hid) = some m := by
      show ((((h.writeDev h.nextId djunk : Heap α).writeDev h.nextId
          (memcpyList djunk dl p.size_)
        |>.writeHost (h.nextId + 1) hjunk
        |>.writeHost (h.nextId + 1)
          (memcpyList hjunk m p.size_))).host hid) = some m
      rw [writeHost_host_ne _ _ _ _ hne2, writeHost_host_ne _ _ _ _ hne2]
      simp [hm]
    refine ⟨rfl, ?_, rfl, rfl, ?_, ?_, ?_, hhostfresh, hhosthid, ?_, ?_⟩
    · rw [hd]
      simp
      omega
    · rw [hpres]
      simp
      omega
    · simp [hcpy]
    · simp [writeDev_device_ne _ _ _ _ hne1, hdl]
    · unfold host_fill
      rw [host_map_present_eq _ _ _ _ (h.nextId + 1)
        (memcpyList hjunk m p.size_) rfl (by simp)]
      show ((_ : Heap α).writeHost (h.nextId + 1) _).host hid = some m
      rw [writeHost_host_ne _ _ _ _ hne2]
      exact hhosthid
    · unfold host_fill
      rw [host_map_present_eq _ _ _ _ hid m hpres hhosthid]
      show ((_ : Heap α).writeHost hid _).host (h.nextId + 1) = some m
      rw [writeHost_host_ne _ _ _ _ (by omega)]
      exact hhostfresh

/-- Witness for C4: source of size 2 with device block `[1, 2]` (id 0) and
mirror `[3, 4]` (id 1); after `copy()` and a `hostFill(7)` on either
handle, the other handle's mirror still reads `[3, 4]`. -/
theorem C4_copy_independence_witness :
    (host_fill
        (copy ({ device := fun j => if j = 0 then some [1, 2] else none,
                 host := fun j => if j = 1 then some [3, 4] else none,
                 nextId := 2 } : Heap Int)
          ⟨some 0, some 1, 2, 1⟩ [0, 0] [0, 0]).1
        (copy ({ device := fun j => if j = 0 then some [1, 2] else none,
                 host := fun j => if j = 1 then some [3, 4] else none,
                 nextId := 2 } : Heap Int)
          ⟨some 0, some 1, 2, 1⟩ [0, 0] [0, 0]).2 7 []).1.host 1 =
      some [3, 4] ∧
    (host_fill
        (copy ({ device := fun j => if j = 0 then some [1, 2] else none,
                 host := fun j => if j = 1 then some [3, 4] else none,
                 nextId := 2 } : Heap Int)
          ⟨some 0, some 1, 2, 1⟩ [0, 0] [0, 0]).1
        ⟨some 0, some 1, 2, 1⟩ 7 []).1.host 3 = some [3, 4] :=
  ((C4_copy_independence _ ⟨some 0, some 1, 2, 1⟩ 7 [0, 0] [0, 0] 0 [1, 2]
      rfl rfl rfl rfl rfl (by decide)).2 1 [3, 4] rfl rfl rfl
      (by decide)).2.2.2.2.2.2.2.2.2
